import Mathlib

/-!
# gc-scrypt-forced: effect model of `main.go`

Source: `go/runtime/gc-scrypt-forced/main.go`.

The program is modelled by the sequence of calls it makes to its external
collaborators (logger, secure random source, trace package, scrypt, the
garbage collector, the goroutine scheduler, the HTTP response writer).
A run is a list of such calls together with a result: `some a` when the
function returns, `none` when the process has been terminated by `os.Exit`.
-/

namespace GcScrypt

/-- One byte of a Go `[]byte`. -/
abbrev Byte := Fin 256

/-- Calls made to the external collaborators, in program order. -/
inductive Event where
  /-- A line handed to the standard logger (`log.Print`, `log.Printf`). -/
  | log (msg : String)
  /-- The call `io.ReadFull(rand.Reader, buf)` with `len(buf) = n`. -/
  | randRead (n : Nat)
  /-- The call `os.Exit(code)`, reached through `log.Fatal` / `log.Fatalf`. -/
  | exit (code : Nat)
  /-- Start of a `trace.WithRegion` region with the given region type. -/
  | regionStart (name : String)
  /-- End of a `trace.WithRegion` region with the given region type. -/
  | regionEnd (name : String)
  /-- The call `scrypt.Key(password, salt, N, r, p, keyLen)`. -/
  | scryptKey (password salt : List Byte) (N r p keyLen : Nat)
  /-- The call `runtime.GC()`. -/
  | gc
  /-- The statement `go executeScrypt(forceGC, logPrefix)`. -/
  | spawn (forceGC : Bool) (logPrefix : String)
  /-- The call `w.Write(body)` on the HTTP response writer. -/
  | httpWrite (body : String)
  deriving DecidableEq, Repr

/-- A run of a piece of Go code: the calls it made and, unless the process
was terminated, the value it returned. -/
structure Run (α : Type) where
  events : List Event
  result : Option α

namespace Run

/-- Returning a value makes no call. -/
def ret {α : Type} (a : α) : Run α := ⟨[], some a⟩

/-- Sequencing: once the process has exited nothing further runs. -/
def andThen {α β : Type} (m : Run α) (f : α → Run β) : Run β :=
  match m.result with
  | none => ⟨m.events, none⟩
  | some a => ⟨m.events ++ (f a).events, (f a).result⟩

/-- A single call that returns normally. -/
def emit (e : Event) : Run Unit := ⟨[e], some ()⟩

end Run

instance : Monad Run where
  pure := Run.ret
  bind := Run.andThen

/-- The external collaborators an invocation talks to: the secure random
source seen through `io.ReadFull` (which either fills the whole buffer of
the requested length or fails) and the key-derivation primitive. -/
structure World where
  readFull : (n : Nat) → Except String { bs : List Byte // bs.length = n }
  scrypt : List Byte → List Byte → Nat → Nat → Nat → Nat → Except String (List Byte)

/-- Go `make([]byte, n)`: a zeroed buffer of length `n`. -/
def makeBytes (n : Nat) : List Byte := List.replicate n 0

/-- Go `[]byte(s)` for an ASCII literal: one byte per character. -/
def bytesOfString (s : String) : List Byte := s.toList.map (fun c => Fin.ofNat c.toNat)

/-- Go `log.Print(v)` / `log.Printf(...)` once the message is formatted. -/
def logPrint (msg : String) : Run Unit := Run.emit (.log msg)

/-- Go `log.Fatal(v)`: `Print` followed by `os.Exit(1)`; it never returns. -/
def logFatal {α : Type} (msg : String) : Run α := ⟨[.log msg, .exit 1], none⟩

/-- Go `io.ReadFull(rand.Reader, buf)`: on success the buffer holds
`len(buf)` fresh bytes. -/
def ioReadFull (w : World) (buf : List Byte) : Run (Except String (List Byte)) :=
  ⟨[.randRead buf.length],
    some (match w.readFull buf.length with
      | .ok bs => .ok bs.val
      | .error err => .error err)⟩

/-- Go `scrypt.Key(password, salt, N, r, p, keyLen)`. -/
def scryptKey (w : World) (password salt : List Byte) (N r p keyLen : Nat) :
    Run (Except String (List Byte)) :=
  ⟨[.scryptKey password salt N r p keyLen], some (w.scrypt password salt N r p keyLen)⟩

/-- Go `runtime.GC()`. -/
def runtimeGC : Run Unit := Run.emit .gc

/-- Go `trace.WithRegion(ctx, regionType, fn)`: start the region, run `fn`,
end the region. -/
def traceWithRegion (regionType : String) (fn : Run Unit) : Run Unit := do
  Run.emit (.regionStart regionType)
  fn
  Run.emit (.regionEnd regionType)

/-- The function `executeScrypt(forceGC bool, logPrefix string)` of `main.go`. -/
def executeScrypt (w : World) (forceGC : Bool) (logPrefix : String) : Run Unit := do
  logPrint ("executeScrypt() requester: " ++ logPrefix ++ "\n")
  let salt := makeBytes 32
  let salt ← (do
    match ← ioReadFull w salt with
    | .error err => logFatal err
    | .ok filled => pure filled)
  traceWithRegion "scrpyt.Key" (do
    match ← scryptKey w (bytesOfString "example_phrase") salt (1 <<< 17) 8 1 32 with
    | .error err => logPrint err
    | .ok _ => pure ())
  traceWithRegion "runtime.GC" (do
    if forceGC then
      runtimeGC)

/-! ## The fan-out trigger: flag values, root handler, startup path -/

/-- The two flag values of `main`: `*forceGC` and `*count` (a Go `int`). -/
structure Config where
  forceGC : Bool
  count : Int

/-- The values a Go `int` of `intSize` bits holds (`strconv.IntSize` is 32
or 64, depending on the platform). -/
def inGoInt (intSize : Nat) (c : Int) : Bool :=
  decide (-(2 ^ (intSize - 1)) ≤ c ∧ c < 2 ^ (intSize - 1))

/-- The flag set of `main` with `flag.ExitOnError`, parsed by `fs.Parse`:
`-force` defaults to `false`, `-count` to `1`. `count` is the number written
after `-count`, when the flag is given. `fs.Int` reads it with
`strconv.ParseInt(s, 0, strconv.IntSize)`: a number that fits a Go `int`
replaces the default unchanged, any other makes `fs.Parse` call `os.Exit(2)`
(the message it prints on standard error is not recorded), so the
`log.Fatalf` branch of `main` is never taken. -/
def parseFlags (intSize : Nat) (force : Option Bool) (count : Option Int) : Run Config :=
  match count with
  | none => pure ⟨force.getD false, 1⟩
  | some c =>
    if inGoInt intSize c then
      pure ⟨force.getD false, c⟩
    else
      ⟨[.exit 2], none⟩

/-- The statement `go executeScrypt(forceGC, logPrefix)`: the new goroutine
is handed to the scheduler and the caller goes on. -/
def goExecuteScrypt (forceGC : Bool) (logPrefix : String) : Run Unit :=
  Run.emit (.spawn forceGC logPrefix)

/-- The body of a loop run `k` times in a row. -/
def repeatRun : Nat → Run Unit → Run Unit
  | 0, _ => pure ()
  | k + 1, body => do
    body
    repeatRun k body

/-- Go `for range n` over an `int`: `n` iterations, none when `n <= 0`. -/
def forRange (n : Int) (body : Run Unit) : Run Unit := repeatRun n.toNat body

/-- The handler registered on `"/"`; `tn` is `time.Now().Format(time.TimeOnly)`. -/
def rootHandler (cfg : Config) (tn : String) : Run Unit := do
  let output := tn ++ " executing scrypt.Key() count: " ++ toString cfg.count ++ "\n"
  Run.emit (.httpWrite output)
  forRange cfg.count (goExecuteScrypt cfg.forceGC ("http at " ++ tn))

/-- The part of `main` between `trace.Start` and the start of the server:
a failed `trace.Start` is fatal, otherwise one invocation is launched. -/
def mainStartup (cfg : Config) (traceStart : Except String Unit) : Run Unit := do
  match traceStart with
  | .error err => logFatal ("trace.Start() error: " ++ err)
  | .ok _ => pure ()
  goExecuteScrypt cfg.forceGC "startup"
  logPrint "listening on: http://localhost:8080/"

/-- The root handler run once per request, in the order the requests are
handled; each request carries its timestamp. -/
def handleRequests (cfg : Config) : List String → Run Unit
  | [] => pure ()
  | tn :: rest => do
    rootHandler cfg tn
    handleRequests cfg rest

/-- The launches of a whole process: startup, then the handled requests. -/
def process (cfg : Config) (traceStart : Except String Unit) (reqs : List String) : Run Unit := do
  mainStartup cfg traceStart
  handleRequests cfg reqs

/-! ## Reading a run -/

/-- A closed trace region: its type, the positions of its start and end in
the run, and the number of regions still open around it. -/
structure Span where
  name : String
  opened : Nat
  closed : Nat
  depth : Nat
  deriving DecidableEq, Repr

/-- Pair region starts with region ends the way the trace package does for
one goroutine: an end closes the innermost open region. -/
def spansFrom (i : Nat) (stack : List (String × Nat)) : List Event → List Span
  | [] => []
  | e :: es =>
    match e, stack with
    | .regionStart n, _ => spansFrom (i + 1) ((n, i) :: stack) es
    | .regionEnd _, (n, s) :: rest => ⟨n, s, i, rest.length⟩ :: spansFrom (i + 1) rest es
    | _, _ => spansFrom (i + 1) stack es

/-- The closed regions of a run, in closing order. -/
def spans (es : List Event) : List Span := spansFrom 0 [] es

/-- Positions (from `i`) of the events satisfying `p`. -/
def positionsFrom (p : Event → Bool) (i : Nat) : List Event → List Nat
  | [] => []
  | e :: es => if p e then i :: positionsFrom p (i + 1) es else positionsFrom p (i + 1) es

/-- Positions of the events satisfying `p`. -/
def positions (p : Event → Bool) (es : List Event) : List Nat := positionsFrom p 0 es

/-- Is the event a region start? -/
def Event.isRegionStart : Event → Bool
  | .regionStart _ => true
  | _ => false

/-- Is the event a region end? -/
def Event.isRegionEnd : Event → Bool
  | .regionEnd _ => true
  | _ => false

/-- Is the event a call of `scrypt.Key`? -/
def Event.isScryptKey : Event → Bool
  | .scryptKey _ _ _ _ _ _ => true
  | _ => false

/-- Is the event a call of `runtime.GC`? -/
def Event.isGC : Event → Bool
  | .gc => true
  | _ => false

/-- Is the event a log line? -/
def Event.isLog : Event → Bool
  | .log _ => true
  | _ => false

/-- Is the event a read of the secure random source? -/
def Event.isRandRead : Event → Bool
  | .randRead _ => true
  | _ => false

/-- Is the event a call of `os.Exit`? -/
def Event.isExit : Event → Bool
  | .exit _ => true
  | _ => false

/-- The launches `go executeScrypt(forceGC, logPrefix)` of a run, in order. -/
def spawns : List Event → List (Bool × String)
  | [] => []
  | e :: es =>
    match e with
    | .spawn f l => (f, l) :: spawns es
    | _ => spawns es

/-- The log lines a failed or successful key derivation leaves behind. -/
def derivationLog : Except String (List Byte) → List Event
  | .error err => [.log err]
  | .ok _ => []

/-- The calls of the forced-collection step. -/
def collectCalls (forceGC : Bool) : List Event := if forceGC then [.gc] else []


/-! ## Sample worlds -/

/-- A world in which every external call succeeds. -/
def World.steady : World :=
  ⟨fun n => .ok ⟨List.replicate n 7, List.length_replicate n 7⟩,
    fun _ _ _ _ _ keyLen => .ok (List.replicate keyLen 0)⟩

/-- A world whose secure random source is unavailable. -/
def World.noEntropy : World :=
  ⟨fun _ => .error "unexpected EOF", fun _ _ _ _ _ keyLen => .ok (List.replicate keyLen 0)⟩

/-- A world whose key-derivation primitive rejects every call. -/
def World.rejecting : World :=
  ⟨fun n => .ok ⟨List.replicate n 7, List.length_replicate n 7⟩,
    fun _ _ _ _ _ _ => .error "scrypt: parameters are too large"⟩

/-! ## Shape of a run of `executeScrypt` -/

/-- The trace of an invocation whose salt read succeeds. -/
theorem executeScrypt_ok (w : World) (forceGC : Bool) (logPrefix : String)
    (bs : { bs : List Byte // bs.length = 32 }) (h : w.readFull 32 = .ok bs) :
    executeScrypt w forceGC logPrefix =
      ⟨[.log ("executeScrypt() requester: " ++ logPrefix ++ "\n"), .randRead 32,
          .regionStart "scrpyt.Key",
          .scryptKey (bytesOfString "example_phrase") bs.val 131072 8 1 32]
        ++ derivationLog (w.scrypt (bytesOfString "example_phrase") bs.val 131072 8 1 32)
        ++ [.regionEnd "scrpyt.Key", .regionStart "runtime.GC"]
        ++ collectCalls forceGC ++ [.regionEnd "runtime.GC"], some ()⟩ := by
  cases hk : w.scrypt (bytesOfString "example_phrase") bs.val 131072 8 1 32 <;>
  cases forceGC <;>
  simp [executeScrypt, logPrint, ioReadFull, makeBytes, traceWithRegion, scryptKey, runtimeGC,
    logFatal, bind, pure, Run.andThen, Run.emit, Run.ret, h, hk, derivationLog, collectCalls]

/-- The trace of an invocation whose salt read fails. -/
theorem executeScrypt_error (w : World) (forceGC : Bool) (logPrefix : String)
    (err : String) (h : w.readFull 32 = .error err) :
    executeScrypt w forceGC logPrefix =
      ⟨[.log ("executeScrypt() requester: " ++ logPrefix ++ "\n"), .randRead 32,
          .log err, .exit 1], none⟩ := by
  simp [executeScrypt, logPrint, ioReadFull, makeBytes, traceWithRegion, scryptKey, runtimeGC,
    logFatal, bind, pure, Run.andThen, Run.emit, Run.ret, h]

/-! ## The invocation unit -/

/-- C1: an invocation whose salt read succeeds emits exactly two trace
regions, whatever the flag, the label and the outcome of `scrypt.Key`; both
are top-level, the first (which contains the key derivation) is closed
before the second (which contains every collection request) is opened. -/
theorem executeScrypt_two_sequential_regions (w : World) (forceGC : Bool) (logPrefix : String)
    (bs : { bs : List Byte // bs.length = 32 }) (h : w.readFull 32 = .ok bs) :
    (executeScrypt w forceGC logPrefix).events.countP Event.isRegionStart = 2 ∧
    (executeScrypt w forceGC logPrefix).events.countP Event.isRegionEnd = 2 ∧
    ∃ s1 s2 : Span, spans (executeScrypt w forceGC logPrefix).events = [s1, s2] ∧
      s1.depth = 0 ∧ s2.depth = 0 ∧
      s1.opened < s1.closed ∧ s1.closed < s2.opened ∧ s2.opened < s2.closed ∧
      positions Event.isScryptKey (executeScrypt w forceGC logPrefix).events ≠ [] ∧
      (∀ i ∈ positions Event.isScryptKey (executeScrypt w forceGC logPrefix).events,
        s1.opened < i ∧ i < s1.closed) ∧
      (∀ i ∈ positions Event.isGC (executeScrypt w forceGC logPrefix).events,
        s2.opened < i ∧ i < s2.closed) := by
  rw [executeScrypt_ok w forceGC logPrefix bs h]
  cases w.scrypt (bytesOfString "example_phrase") bs.val 131072 8 1 32 <;>
  cases forceGC <;>
  simp [derivationLog, collectCalls, spans, spansFrom, positions, positionsFrom,
    Event.isRegionStart, Event.isRegionEnd, Event.isScryptKey, Event.isGC] <;>
  exact ⟨_, _, ⟨rfl, rfl⟩, by simp⟩

/-- C1 at the all-succeeding world, flag set, label `startup`. -/
theorem executeScrypt_two_sequential_regions_witness :
    World.steady.readFull 32 = .ok ⟨List.replicate 32 7, List.length_replicate 32 7⟩ ∧
    (executeScrypt World.steady true "startup").events.countP Event.isRegionStart = 2 ∧
    (executeScrypt World.steady true "startup").events.countP Event.isRegionEnd = 2 :=
  ⟨rfl,
    (executeScrypt_two_sequential_regions World.steady true "startup" _ rfl).1,
    (executeScrypt_two_sequential_regions World.steady true "startup" _ rfl).2.1⟩

/-- C2: with the flag set, an invocation whose salt read succeeds requests
exactly one collection, inside the second region and after the region of
the key derivation has closed; with the flag clear it requests none and the
second region is still emitted, its end directly following its start. -/
theorem executeScrypt_gc_request (w : World) (logPrefix : String)
    (bs : { bs : List Byte // bs.length = 32 }) (h : w.readFull 32 = .ok bs) :
    (∃ (s1 s2 : Span) (i : Nat),
      spans (executeScrypt w true logPrefix).events = [s1, s2] ∧
      positions Event.isGC (executeScrypt w true logPrefix).events = [i] ∧
      (∀ j ∈ positions Event.isScryptKey (executeScrypt w true logPrefix).events,
        s1.opened < j ∧ j < s1.closed) ∧
      s1.closed < s2.opened ∧ s2.opened < i ∧ i < s2.closed) ∧
    (∃ s1 s2 : Span,
      spans (executeScrypt w false logPrefix).events = [s1, s2] ∧
      positions Event.isGC (executeScrypt w false logPrefix).events = [] ∧
      (∀ j ∈ positions Event.isScryptKey (executeScrypt w false logPrefix).events,
        s1.opened < j ∧ j < s1.closed) ∧
      s1.closed < s2.opened ∧ s2.closed = s2.opened + 1) := by
  rw [executeScrypt_ok w true logPrefix bs h, executeScrypt_ok w false logPrefix bs h]
  cases w.scrypt (bytesOfString "example_phrase") bs.val 131072 8 1 32 <;>
  simp [derivationLog, collectCalls, spans, spansFrom, positions, positionsFrom,
    Event.isScryptKey, Event.isGC] <;>
  exact ⟨⟨_, _, ⟨rfl, rfl⟩, by simp⟩, ⟨_, _, ⟨rfl, rfl⟩, by simp⟩⟩

/-- C2 at the all-succeeding world: no collection is requested with the
flag clear. -/
theorem executeScrypt_gc_request_witness :
    World.steady.readFull 32 = .ok ⟨List.replicate 32 7, List.length_replicate 32 7⟩ ∧
    ∃ s1 s2 : Span,
      spans (executeScrypt World.steady false "startup").events = [s1, s2] ∧
      positions Event.isGC (executeScrypt World.steady false "startup").events = [] ∧
      (∀ j ∈ positions Event.isScryptKey (executeScrypt World.steady false "startup").events,
        s1.opened < j ∧ j < s1.closed) ∧
      s1.closed < s2.opened ∧ s2.closed = s2.opened + 1 :=
  ⟨rfl, (executeScrypt_gc_request World.steady "startup" _ rfl).2⟩

/-- C3: when the salt read fails the invocation ends in a fatal log entry
carrying the error followed by `os.Exit(1)`, and has emitted no trace
region, called `scrypt.Key` not once and requested no collection. -/
theorem executeScrypt_salt_failure_fatal (w : World) (forceGC : Bool) (logPrefix : String)
    (err : String) (h : w.readFull 32 = .error err) :
    (executeScrypt w forceGC logPrefix).result = none ∧
    (∃ before : List Event,
      (executeScrypt w forceGC logPrefix).events = before ++ [.log err, .exit 1] ∧
      before.countP Event.isExit = 0) ∧
    (executeScrypt w forceGC logPrefix).events.countP Event.isRegionStart = 0 ∧
    (executeScrypt w forceGC logPrefix).events.countP Event.isRegionEnd = 0 ∧
    spans (executeScrypt w forceGC logPrefix).events = [] ∧
    positions Event.isScryptKey (executeScrypt w forceGC logPrefix).events = [] ∧
    positions Event.isGC (executeScrypt w forceGC logPrefix).events = [] := by
  rw [executeScrypt_error w forceGC logPrefix err h]
  refine ⟨rfl, ⟨[.log ("executeScrypt() requester: " ++ logPrefix ++ "\n"), .randRead 32],
    rfl, ?_⟩, ?_⟩ <;>
  simp [spans, spansFrom, positions, positionsFrom, Event.isExit,
    Event.isRegionStart, Event.isRegionEnd, Event.isScryptKey, Event.isGC]

/-- C3 at a world without entropy, flag set, label `startup`. -/
theorem executeScrypt_salt_failure_fatal_witness :
    World.noEntropy.readFull 32 = .error "unexpected EOF" ∧
    (executeScrypt World.noEntropy true "startup").result = none ∧
    spans (executeScrypt World.noEntropy true "startup").events = [] :=
  ⟨rfl,
    (executeScrypt_salt_failure_fatal World.noEntropy true "startup" _ rfl).1,
    (executeScrypt_salt_failure_fatal World.noEntropy true "startup" _ rfl).2.2.2.2.1⟩

/-- C4: when `scrypt.Key` fails, the run is the run of a successful
derivation (same salt) with exactly one log entry carrying the error
inserted; nothing after that entry differs, so the second region is the
same; the invocation returns normally, never calls `os.Exit`, and requests
one collection when the flag is set and none otherwise. -/
theorem executeScrypt_derivation_failure (w w' : World) (forceGC : Bool) (logPrefix : String)
    (bs : { bs : List Byte // bs.length = 32 }) (err : String) (key : List Byte)
    (h : w.readFull 32 = .ok bs) (h' : w'.readFull 32 = .ok bs)
    (hk : w.scrypt (bytesOfString "example_phrase") bs.val 131072 8 1 32 = .error err)
    (hk' : w'.scrypt (bytesOfString "example_phrase") bs.val 131072 8 1 32 = .ok key) :
    (executeScrypt w forceGC logPrefix).result = some () ∧
    (executeScrypt w forceGC logPrefix).events.countP Event.isExit = 0 ∧
    (executeScrypt w forceGC logPrefix).events.countP Event.isLog =
      (executeScrypt w' forceGC logPrefix).events.countP Event.isLog + 1 ∧
    (executeScrypt w forceGC logPrefix).events.countP Event.isGC =
      (if forceGC then 1 else 0) ∧
    ∃ (before after : List Event) (s1 s2 : Span),
      (executeScrypt w forceGC logPrefix).events = before ++ .log err :: after ∧
      (executeScrypt w' forceGC logPrefix).events = before ++ after ∧
      spans (executeScrypt w forceGC logPrefix).events = [s1, s2] ∧
      s1.closed = before.length + 1 ∧
      s2.opened = before.length + 2 ∧
      (∀ i ∈ positions Event.isGC (executeScrypt w forceGC logPrefix).events,
        s2.opened < i ∧ i < s2.closed) := by
  rw [executeScrypt_ok w forceGC logPrefix bs h, executeScrypt_ok w' forceGC logPrefix bs h',
    hk, hk']
  refine ⟨rfl, ?_, ?_, ?_,
    [.log ("executeScrypt() requester: " ++ logPrefix ++ "\n"), .randRead 32,
      .regionStart "scrpyt.Key",
      .scryptKey (bytesOfString "example_phrase") bs.val 131072 8 1 32],
    [.regionEnd "scrpyt.Key", .regionStart "runtime.GC"] ++ collectCalls forceGC
      ++ [.regionEnd "runtime.GC"], ?_⟩ <;>
  cases forceGC <;>
  simp [derivationLog, collectCalls, spans, spansFrom, positions, positionsFrom,
    Event.isExit, Event.isLog, Event.isGC] <;>
  exact ⟨_, _, ⟨rfl, rfl⟩, by simp⟩

/-- C4 at a rejecting world against the all-succeeding one, flag set. -/
theorem executeScrypt_derivation_failure_witness :
    World.rejecting.readFull 32 = .ok ⟨List.replicate 32 7, List.length_replicate 32 7⟩ ∧
    World.steady.readFull 32 = .ok ⟨List.replicate 32 7, List.length_replicate 32 7⟩ ∧
    World.rejecting.scrypt (bytesOfString "example_phrase") (List.replicate 32 7) 131072 8 1 32
      = .error "scrypt: parameters are too large" ∧
    World.steady.scrypt (bytesOfString "example_phrase") (List.replicate 32 7) 131072 8 1 32
      = .ok (List.replicate 32 0) ∧
    (executeScrypt World.rejecting true "startup").result = some () ∧
    (executeScrypt World.rejecting true "startup").events.countP Event.isGC = 1 :=
  ⟨rfl, rfl, rfl, rfl,
    (executeScrypt_derivation_failure World.rejecting World.steady true "startup"
      ⟨List.replicate 32 7, List.length_replicate 32 7⟩ _ _ rfl rfl rfl rfl).1,
    (executeScrypt_derivation_failure World.rejecting World.steady true "startup"
      ⟨List.replicate 32 7, List.length_replicate 32 7⟩ _ _ rfl rfl rfl rfl).2.2.2.1⟩

/-! ## Shape of the runs of the fan-out trigger -/

/-- The loop body `go executeScrypt(...)` run `k` times launches `k` times. -/
theorem repeatRun_spawn (k : Nat) (forceGC : Bool) (logPrefix : String) :
    repeatRun k (goExecuteScrypt forceGC logPrefix) =
      ⟨List.replicate k (.spawn forceGC logPrefix), some ()⟩ := by
  induction k with
  | zero => rfl
  | succ k ih =>
    simp only [repeatRun, bind, Run.andThen, ih]
    simp [goExecuteScrypt, Run.emit, List.replicate_succ]

/-- The run of the root handler: one write, then `count` launches. -/
theorem rootHandler_eq (cfg : Config) (tn : String) :
    rootHandler cfg tn =
      ⟨.httpWrite (tn ++ " executing scrypt.Key() count: " ++ toString cfg.count ++ "\n") ::
        List.replicate cfg.count.toNat (.spawn cfg.forceGC ("http at " ++ tn)), some ()⟩ := by
  simp [rootHandler, forRange, repeatRun_spawn, bind, Run.andThen, Run.emit]

/-- Launches of a run that is a list of launches. -/
theorem spawns_replicate (k : Nat) (forceGC : Bool) (logPrefix : String) :
    spawns (List.replicate k (.spawn forceGC logPrefix)) =
      List.replicate k (forceGC, logPrefix) := by
  induction k with
  | zero => rfl
  | succ k ih => simp [List.replicate_succ, spawns, ih]

/-- Launches of two runs in a row. -/
theorem spawns_append (xs ys : List Event) : spawns (xs ++ ys) = spawns xs ++ spawns ys := by
  induction xs with
  | nil => rfl
  | cons e xs ih => cases e <;> simp [spawns, ih]

/-- The launches of one request. -/
theorem spawns_rootHandler (cfg : Config) (tn : String) :
    spawns (rootHandler cfg tn).events =
      List.replicate cfg.count.toNat (cfg.forceGC, "http at " ++ tn) := by
  rw [rootHandler_eq]
  simp [spawns, spawns_replicate]

/-- The launches of a sequence of requests. -/
theorem spawns_handleRequests (cfg : Config) (reqs : List String) :
    spawns (handleRequests cfg reqs).events =
      reqs.flatMap (fun tn => List.replicate cfg.count.toNat (cfg.forceGC, "http at " ++ tn)) := by
  induction reqs with
  | nil => rfl
  | cons tn rest ih =>
    have hr := spawns_rootHandler cfg tn
    have hh : (handleRequests cfg (tn :: rest)).events =
        (rootHandler cfg tn).events ++ (handleRequests cfg rest).events := by
      simp [handleRequests, rootHandler_eq, bind, Run.andThen]
    rw [hh, spawns_append, hr, ih, List.flatMap_cons]

/-- The run of the startup path when `trace.Start` succeeds. -/
theorem mainStartup_ok (cfg : Config) :
    mainStartup cfg (.ok ()) =
      ⟨[.spawn cfg.forceGC "startup", .log "listening on: http://localhost:8080/"], some ()⟩ := by
  simp [mainStartup, goExecuteScrypt, logPrint, bind, pure, Run.andThen, Run.emit, Run.ret]

/-- C5: for a count `N >= 1` and `k` handled requests the process launches
`1 + k * N` invocations: one at startup, `N` per request, each with the
configured flag. -/
theorem process_launch_count (cfg : Config) (reqs : List String) (hN : 1 ≤ cfg.count) :
    ((spawns (process cfg (.ok ()) reqs).events).length : Int) = 1 + reqs.length * cfg.count ∧
    spawns (mainStartup cfg (.ok ())).events = [(cfg.forceGC, "startup")] ∧
    (∀ tn : String, ((spawns (rootHandler cfg tn).events).length : Int) = cfg.count) ∧
    (∀ s ∈ spawns (process cfg (.ok ()) reqs).events, s.1 = cfg.forceGC) := by
  have hc : ((cfg.count.toNat : Nat) : Int) = cfg.count := Int.toNat_of_nonneg (by omega)
  have hp : spawns (process cfg (.ok ()) reqs).events =
      (cfg.forceGC, "startup") ::
        reqs.flatMap (fun tn => List.replicate cfg.count.toNat (cfg.forceGC, "http at " ++ tn)) := by
    have := spawns_handleRequests cfg reqs
    simp [process, mainStartup_ok, bind, Run.andThen, spawns_append, spawns, this]
  refine ⟨?_, ?_, ?_, ?_⟩
  · rw [hp]
    have hl : ∀ rs : List String, (rs.flatMap (fun tn =>
        List.replicate cfg.count.toNat (cfg.forceGC, "http at " ++ tn))).length
          = rs.length * cfg.count.toNat := by
      intro rs
      induction rs with
      | nil => simp
      | cons tn rest ih =>
        rw [List.flatMap_cons, List.length_append, ih, List.length_replicate, List.length_cons]
        ring
    simp only [List.length_cons, hl reqs]
    push_cast
    rw [hc]
    ring
  · simp [mainStartup_ok, spawns]
  · intro tn
    rw [spawns_rootHandler, List.length_replicate, hc]
  · rw [hp]
    intro s hs
    simp only [List.mem_cons, List.mem_flatMap, List.mem_replicate] at hs
    rcases hs with rfl | ⟨tn, _, _, rfl⟩ <;> rfl

/-- C5 at count 3 with the flag set and two requests: seven launches. -/
theorem process_launch_count_witness :
    (1 : Int) ≤ (Config.mk true 3).count ∧
    ((spawns (process (Config.mk true 3) (.ok ()) ["10:00:00", "10:00:01"]).events).length : Int)
      = 1 + (["10:00:00", "10:00:01"] : List String).length * (Config.mk true 3).count :=
  ⟨by decide, (process_launch_count (Config.mk true 3) ["10:00:00", "10:00:01"] (by decide)).1⟩

/-- A count outside the range of a Go `int` never reaches the handler:
`fs.Parse` ends the process with status 2. -/
theorem parseFlags_out_of_range (intSize : Nat) (force : Option Bool) (c : Int)
    (hc : inGoInt intSize c = false) :
    parseFlags intSize force (some c) = ⟨[.exit 2], none⟩ := by
  simp [parseFlags, hc]

/-- C6 as stated fails: `-count=0` is accepted by the flag set and a request
then launches nothing. -/
theorem rootHandler_count_zero_launches_none :
    (parseFlags 64 none (some 0)).result = some (Config.mk false 0) ∧
    ¬ (1 ≤ (spawns (rootHandler (Config.mk false 0) "10:00:00").events).length) :=
  ⟨rfl, by decide⟩

/-- C6 amended: a count given on the command line that fits a Go `int` is
accepted and used unchanged; a request launches `max count 0` invocations,
hence at least one exactly when the count is at least 1; without the flag
the count is 1 and a request launches exactly one. -/
theorem rootHandler_launches_count (intSize : Nat) (force : Option Bool) (c : Int) (tn : String)
    (hc : inGoInt intSize c = true) :
    (parseFlags intSize force (some c)).result = some (Config.mk (force.getD false) c) ∧
    (parseFlags intSize force (some c)).events = [] ∧
    spawns (rootHandler (Config.mk (force.getD false) c) tn).events =
      List.replicate c.toNat (force.getD false, "http at " ++ tn) ∧
    ((spawns (rootHandler (Config.mk (force.getD false) c) tn).events).length : Int) = max c 0 ∧
    (1 ≤ (spawns (rootHandler (Config.mk (force.getD false) c) tn).events).length ↔ 1 ≤ c) ∧
    (parseFlags intSize force none).result = some (Config.mk (force.getD false) 1) ∧
    spawns (rootHandler (Config.mk (force.getD false) 1) tn).events =
      [(force.getD false, "http at " ++ tn)] := by
  refine ⟨?_, ?_, ?_, ?_, ?_, rfl, ?_⟩
  · simp [parseFlags, hc, pure, Run.ret]
  · simp [parseFlags, hc, pure, Run.ret]
  · rw [spawns_rootHandler]
  · rw [spawns_rootHandler, List.length_replicate]
    show ((c.toNat : Nat) : Int) = max c 0
    omega
  · rw [spawns_rootHandler, List.length_replicate]
    show 1 ≤ c.toNat ↔ 1 ≤ c
    omega
  · rw [spawns_rootHandler]; rfl

/-- C6 (amended) on a 64-bit platform at `-count=-3`: nothing is launched. -/
theorem rootHandler_launches_count_witness :
    inGoInt 64 (-3) = true ∧
    (parseFlags 64 (some true) (some (-3))).result = some (Config.mk true (-3)) ∧
    spawns (rootHandler (Config.mk true (-3)) "10:00:00").events = [] :=
  ⟨by decide,
    (rootHandler_launches_count 64 (some true) (-3) "10:00:00" (by decide)).1,
    (rootHandler_launches_count 64 (some true) (-3) "10:00:00" (by decide)).2.2.1⟩

/-- C7: an invocation whose salt read succeeds calls `scrypt.Key` exactly
once, after its single 32-byte read of the random source, with the bytes of
`example_phrase`, the 32 bytes that read delivered, `N = 2^17 = 131072`,
`r = 8`, `p = 1` and `keyLen = 32`, whatever the flag and the label. -/
theorem executeScrypt_derivation_arguments (w : World) (forceGC : Bool) (logPrefix : String)
    (bs : { bs : List Byte // bs.length = 32 }) (h : w.readFull 32 = .ok bs) :
    (executeScrypt w forceGC logPrefix).events.filter Event.isScryptKey =
      [.scryptKey [101, 120, 97, 109, 112, 108, 101, 95, 112, 104, 114, 97, 115, 101]
        bs.val (2 ^ 17) 8 1 32] ∧
    (2 : Nat) ^ 17 = 131072 ∧
    bs.val.length = 32 ∧
    (executeScrypt w forceGC logPrefix).events.filter Event.isRandRead = [.randRead 32] ∧
    ∃ i j : Nat,
      positions Event.isRandRead (executeScrypt w forceGC logPrefix).events = [i] ∧
      positions Event.isScryptKey (executeScrypt w forceGC logPrefix).events = [j] ∧
      i < j := by
  have hp : bytesOfString "example_phrase" =
      [101, 120, 97, 109, 112, 108, 101, 95, 112, 104, 114, 97, 115, 101] := by decide
  rw [executeScrypt_ok w forceGC logPrefix bs h, hp]
  refine ⟨?_, by norm_num, bs.property, ?_, ?_⟩ <;>
  cases w.scrypt [101, 120, 97, 109, 112, 108, 101, 95, 112, 104, 114, 97, 115, 101]
    bs.val 131072 8 1 32 <;>
  cases forceGC <;>
  simp [derivationLog, collectCalls, positions, positionsFrom, Event.isScryptKey,
    Event.isRandRead]

/-- C7 at the all-succeeding world, flag clear, label `startup`. -/
theorem executeScrypt_derivation_arguments_witness :
    World.steady.readFull 32 = .ok ⟨List.replicate 32 7, List.length_replicate 32 7⟩ ∧
    (executeScrypt World.steady false "startup").events.filter Event.isScryptKey =
      [.scryptKey [101, 120, 97, 109, 112, 108, 101, 95, 112, 104, 114, 97, 115, 101]
        (List.replicate 32 7) (2 ^ 17) 8 1 32] :=
  ⟨rfl, (executeScrypt_derivation_arguments World.steady false "startup" _ rfl).1⟩

/-- C8 as stated fails: the two regions are not named `derive` and
`force-collect`. -/
theorem executeScrypt_region_names_not_derive :
    (spans (executeScrypt World.steady false "startup").events).map Span.name
      ≠ ["derive", "force-collect"] := by
  decide

/-- C8 amended: the names of the two regions are fixed, the same in every
invocation whose salt read succeeds, whatever the flag, the label, the salt
and the outcome of the derivation; the second region, the one around the
optional collection, is named `runtime.GC` after the call it wraps, and the
first, the one around the key derivation, carries a different name. -/
theorem executeScrypt_region_names (w w' : World) (forceGC forceGC' : Bool)
    (logPrefix logPrefix' : String) (bs bs' : { bs : List Byte // bs.length = 32 })
    (h : w.readFull 32 = .ok bs) (h' : w'.readFull 32 = .ok bs') :
    ∃ s1 s2 t1 t2 : Span,
      spans (executeScrypt w forceGC logPrefix).events = [s1, s2] ∧
      spans (executeScrypt w' forceGC' logPrefix').events = [t1, t2] ∧
      s1.opened < s2.opened ∧
      (∀ i ∈ positions Event.isScryptKey (executeScrypt w forceGC logPrefix).events,
        s1.opened < i ∧ i < s1.closed) ∧
      (∀ i ∈ positions Event.isGC (executeScrypt w forceGC logPrefix).events,
        s2.opened < i ∧ i < s2.closed) ∧
      s2.name = "runtime.GC" ∧ s1.name ≠ s2.name ∧
      t1.name = s1.name ∧ t2.name = s2.name := by
  rw [executeScrypt_ok w forceGC logPrefix bs h, executeScrypt_ok w' forceGC' logPrefix' bs' h']
  cases w.scrypt (bytesOfString "example_phrase") bs.val 131072 8 1 32 <;>
  cases w'.scrypt (bytesOfString "example_phrase") bs'.val 131072 8 1 32 <;>
  cases forceGC <;> cases forceGC' <;>
  simp [derivationLog, collectCalls, spans, spansFrom, positions, positionsFrom,
    Event.isScryptKey, Event.isGC] <;>
  exact ⟨_, _, ⟨rfl, rfl⟩, _, _, ⟨rfl, rfl⟩, by simp⟩

/-- C8 (amended) at the all-succeeding world with the flag clear against the
rejecting world with the flag set. -/
theorem executeScrypt_region_names_witness :
    World.steady.readFull 32 = .ok ⟨List.replicate 32 7, List.length_replicate 32 7⟩ ∧
    World.rejecting.readFull 32 = .ok ⟨List.replicate 32 7, List.length_replicate 32 7⟩ ∧
    ∃ s1 s2 t1 t2 : Span,
      spans (executeScrypt World.steady false "startup").events = [s1, s2] ∧
      spans (executeScrypt World.rejecting true "http at 10:00:00").events = [t1, t2] ∧
      s1.opened < s2.opened ∧
      (∀ i ∈ positions Event.isScryptKey (executeScrypt World.steady false "startup").events,
        s1.opened < i ∧ i < s1.closed) ∧
      (∀ i ∈ positions Event.isGC (executeScrypt World.steady false "startup").events,
        s2.opened < i ∧ i < s2.closed) ∧
      s2.name = "runtime.GC" ∧ s1.name ≠ s2.name ∧
      t1.name = s1.name ∧ t2.name = s2.name :=
  ⟨rfl, rfl,
    executeScrypt_region_names World.steady World.rejecting false true "startup"
      "http at 10:00:00" _ _ rfl rfl⟩

/-- C9: the label only reaches the first log line. For every flag value and
every outcome of the salt read and of the key derivation, the run is that
line, which contains the label, followed by calls that do not depend on the
label; two labels give the same calls other than log lines and the same
result. -/
theorem executeScrypt_label_only_logged (w : World) (forceGC : Bool) :
    (∃ rest : List Event, ∀ logPrefix : String,
      (executeScrypt w forceGC logPrefix).events =
        .log ("executeScrypt() requester: " ++ logPrefix ++ "\n") :: rest) ∧
    (∀ l1 l2 : String,
      (executeScrypt w forceGC l1).events.filter (fun e => !e.isLog) =
        (executeScrypt w forceGC l2).events.filter (fun e => !e.isLog) ∧
      (executeScrypt w forceGC l1).result = (executeScrypt w forceGC l2).result) ∧
    (∀ logPrefix : String,
      logPrefix.toList <:+: ("executeScrypt() requester: " ++ logPrefix ++ "\n").toList) := by
  refine ⟨?_, ?_, ?_⟩
  · cases h : w.readFull 32 with
    | error err =>
      exact ⟨_, fun l => by rw [executeScrypt_error w forceGC l err h]⟩
    | ok bs =>
      exact ⟨_, fun l => by rw [executeScrypt_ok w forceGC l bs h]; rfl⟩
  · intro l1 l2
    cases h : w.readFull 32 with
    | error err =>
      rw [executeScrypt_error w forceGC l1 err h, executeScrypt_error w forceGC l2 err h]
      simp [Event.isLog]
    | ok bs =>
      rw [executeScrypt_ok w forceGC l1 bs h, executeScrypt_ok w forceGC l2 bs h]
      simp [Event.isLog]
  · intro l
    exact ⟨"executeScrypt() requester: ".toList, "\n".toList, by simp [String.data_append]⟩

end GcScrypt
